import Mathlib

/-!
Shallow embedding of the node-identity and inventory reconciliation logic of
the fabfile (salt-beef repository): the Inventory Cache (refresh_boxen and
the env.boxen dictionary), the Profile Store (the cloud.profiles file written
and read with yaml.dump and yaml.load), the Node Resolver (the birth task),
the Session Binder (the herd task), the destroy operation (euthanise) and the
DNS reconciliation closure (_manage_name inside brand).

Python dictionaries are modelled as association lists where a later binding
for a key shadows an earlier one (as in dict(pairs) construction, where the
last pair wins).  Machine-level details that the logic never depends on
(float widening in the flavour comparison, console colours, printing) are
dropped; fallible Python operations (open on a missing file, indexing an
empty list, a missing dictionary key) are modelled with Except over an
explicit error type mirroring the exception the interpreter raises.
Nondeterministic inputs (uuid4, the provider listing re-read inside polling
loops) are supplied as explicit oracles in the world state.
-/

namespace SaltBeef

/-- Errors the Python interpreter or fabric can raise on the modelled paths. -/
inductive PyError where
  | ioError
  | yamlError
  | indexError
  | keyError (key : String)
  | typeError
  | attributeError
  | abortMsg (msg : String)
  | infiniteLoop
deriving Repr, DecidableEq

/-- Python dictionary lookup on an association list: the LAST binding for a
key wins, as with dict(pairs) construction in Python. -/
def pyGet {α β : Type} [DecidableEq α] (d : List (α × β)) (k : α) : Option β :=
  match d with
  | [] => none
  | (k', v) :: rest =>
    match pyGet rest k with
    | some r => some r
    | none => if k' = k then some v else none

/-- Python `k in d` key-membership test. -/
def hasKey {α β : Type} [DecidableEq α] (d : List (α × β)) (k : α) : Bool :=
  (pyGet d k).isSome

/-- Python `d[k] = v`: replace the binding when the key is present, append
otherwise. -/
def setKey {α β : Type} [DecidableEq α] (d : List (α × β)) (k : α) (v : β) :
    List (α × β) :=
  if hasKey d k then d.map (fun p => if p.1 = k then (k, v) else p)
  else d ++ [(k, v)]

theorem pyGet_none {α β : Type} [DecidableEq α] (d : List (α × β)) (k : α)
    (h : k ∉ d.map Prod.fst) : pyGet d k = none := by
  induction d with
  | nil => rfl
  | cons p rest ih =>
    obtain ⟨k', v⟩ := p
    simp only [List.map_cons, List.mem_cons] at h
    push_neg at h
    simp only [pyGet, ih h.2]
    simp [Ne.symm h.1]

/-- An OS image as listed by the provider. -/
structure Image where
  id : String
  name : String
deriving Repr, DecidableEq

/-- A compute flavour as listed by the provider (ram in MB, disk in GB). -/
structure Flavor where
  id : String
  name : String
  ram : Nat
  disk : Nat
deriving Repr, DecidableEq

/-- A provider compute resource: the fields of the pyrax server object the
fabfile reads.  addresses maps a network label to a list of entries pairing
an IP version with an address; adminPass is present only on the object
returned by a creation call. -/
structure ServerRecord where
  name : String
  id : String
  addresses : List (String × List (Nat × String))
  adminPass : Option String
deriving Repr, DecidableEq

/-- One entry of the cloud.profiles mapping, as written by birth. -/
structure Profile where
  provider : String
  size : String
  image : String
deriving Repr, DecidableEq

/-- The profiles mapping: profile name to profile entry. -/
abbrev Profiles := List (String × Profile)

/-! ### The Profile Store file format

Models the serialisation of the profiles mapping that the fabfile performs
with yaml.dump, restricted to the exact shape the code writes: a mapping from
a profile name to a three-field mapping with keys image, provider, size (the
alphabetical key order pyyaml emits in block style).  yamlLoadProfiles models
the composite expression `yaml.load(...) or {}` from birth: an empty file
yields the empty mapping. -/

def nlChar : Char := '\n'

/-- Strip an expected leading character sequence, returning the remainder. -/
def stripPre : List Char → List Char → Option (List Char)
  | [], cs => some cs
  | _ :: _, [] => none
  | p :: ps, c :: cs => if p = c then stripPre ps cs else none

theorem stripPre_append (p v : List Char) : stripPre p (p ++ v) = some v := by
  induction p with
  | nil => rfl
  | cons c cs ih => simp [stripPre, ih]

/-- Join lines with a newline separator. -/
def joinLines : List (List Char) → List Char
  | [] => []
  | [l] => l
  | l :: l' :: ls => l ++ nlChar :: joinLines (l' :: ls)

/-- Split a character sequence at newlines. -/
def splitNl : List Char → List (List Char)
  | [] => [[]]
  | c :: cs =>
    if c = nlChar then [] :: splitNl cs
    else
      match splitNl cs with
      | [] => [[c]]
      | l :: ls => (c :: l) :: ls

theorem splitNl_ne_nil (cs : List Char) : splitNl cs ≠ [] := by
  induction cs with
  | nil => simp [splitNl]
  | cons c cs ih =>
    simp only [splitNl]
    split
    · simp
    · split
      · simp
      · simp

theorem splitNl_no_nl (l : List Char) (h : nlChar ∉ l) : splitNl l = [l] := by
  induction l with
  | nil => rfl
  | cons c cs ih =>
    simp only [List.mem_cons] at h
    push_neg at h
    simp only [splitNl, if_neg (Ne.symm h.1), ih h.2]

theorem splitNl_append (l cs : List Char) (h : nlChar ∉ l) :
    splitNl (l ++ nlChar :: cs) = l :: splitNl cs := by
  induction l with
  | nil => simp [splitNl]
  | cons c t ih =>
    simp only [List.mem_cons] at h
    push_neg at h
    simp only [List.cons_append, splitNl, if_neg (Ne.symm h.1)]
    rw [show t.append (nlChar :: cs) = t ++ nlChar :: cs from rfl, ih h.2]

theorem splitNl_joinLines (ls : List (List Char)) (hne : ls ≠ [])
    (h : ∀ l ∈ ls, nlChar ∉ l) : splitNl (joinLines ls) = ls := by
  induction ls with
  | nil => exact absurd rfl hne
  | cons l rest ih =>
    match rest with
    | [] => exact splitNl_no_nl l (h l (by simp))
    | l' :: ls' =>
      have h1 : nlChar ∉ l := h l (by simp)
      have h2 : ∀ x ∈ l' :: ls', nlChar ∉ x := fun x hx => h x (by simp [hx])
      simp only [joinLines, splitNl_append l _ h1]
      rw [ih (by simp) h2]

/-- The four lines yaml.dump emits for one profile entry (keys in the
alphabetical order pyyaml uses). -/
def emitEntry (nm : String) (p : Profile) : List (List Char) :=
  [nm.data ++ [':'],
   "  image: ".data ++ p.image.data,
   "  provider: ".data ++ p.provider.data,
   "  size: ".data ++ p.size.data]

/-- All lines of the serialised profiles mapping, in list order. -/
def emitLines : Profiles → List (List Char)
  | [] => []
  | (nm, p) :: rest => emitEntry nm p ++ emitLines rest

/-- Serialise the profiles mapping: models `yaml.dump(profiles)`. -/
def yamlDumpProfiles (ps : Profiles) : String :=
  String.mk (joinLines (emitLines ps))

/-- Parse the name line of an entry: it ends in a colon. -/
def parseName (l : List Char) : Option String :=
  match l.reverse with
  | ':' :: rest => some (String.mk rest.reverse)
  | _ => none

theorem parseName_emit (nm : String) : parseName (nm.data ++ [':']) = some nm := by
  simp [parseName]

/-- Parse a sequence of four-line entry chunks. -/
def parseChunks : List (List Char) → Option Profiles
  | [] => some []
  | l0 :: l1 :: l2 :: l3 :: rest =>
    match parseName l0, stripPre "  image: ".data l1,
        stripPre "  provider: ".data l2, stripPre "  size: ".data l3,
        parseChunks rest with
    | some nm, some i, some pv, some sz, some ps =>
      some ((nm, ⟨String.mk pv, String.mk sz, String.mk i⟩) :: ps)
    | _, _, _, _, _ => none
  | _ => none

/-- Deserialise the profiles file content: models the composite expression
`yaml.load(file_content) or \x7b\x7d` from birth, where an empty file makes
yaml.load return None and the disjunction turns it into the empty mapping. -/
def yamlLoadProfiles (s : String) : Option Profiles :=
  if s.data = [] then some [] else parseChunks (splitNl s.data)

/-- Reading the local cloud.profiles file: `open` raises IOError when the
file is missing (the code performs no existence check), otherwise the content
is parsed; unparseable content is a yaml error. -/
def loadProfilesFile (file : Option String) : Except PyError Profiles :=
  match file with
  | none => .error .ioError
  | some s =>
    match yamlLoadProfiles s with
    | some ps => .ok ps
    | none => .error .yamlError

/-- A string fit to appear as a plain one-line yaml scalar in this format:
it contains no newline character. -/
def noNl (s : String) : Prop := nlChar ∉ s.data

instance (s : String) : Decidable (noNl s) := by
  unfold noNl; infer_instance

/-- All strings of a profiles mapping are newline-free. -/
def plainProfiles (ps : Profiles) : Prop :=
  ∀ x ∈ ps, noNl x.1 ∧ noNl x.2.provider ∧ noNl x.2.size ∧ noNl x.2.image

instance (ps : Profiles) : Decidable (plainProfiles ps) := by
  unfold plainProfiles; infer_instance

theorem emitLines_no_nl (ps : Profiles) (h : plainProfiles ps) :
    ∀ l ∈ emitLines ps, nlChar ∉ l := by
  induction ps with
  | nil => simp [emitLines]
  | cons x rest ih =>
    obtain ⟨nm, p⟩ := x
    have hx := h (nm, p) (by simp)
    have hrest : plainProfiles rest := fun y hy => h y (by simp [hy])
    intro l hl
    simp only [emitLines, emitEntry, List.mem_append, List.mem_cons,
      List.mem_singleton] at hl
    rcases hl with (h0 | h1 | h2 | h3 | h4) | hr
    · subst h0
      simp only [List.mem_append, List.mem_singleton]
      push_neg
      exact ⟨hx.1, by decide⟩
    · subst h1
      simp only [List.mem_append]
      push_neg
      exact ⟨by decide, hx.2.2.2⟩
    · subst h2
      simp only [List.mem_append]
      push_neg
      exact ⟨by decide, hx.2.1⟩
    · subst h3
      simp only [List.mem_append]
      push_neg
      exact ⟨by decide, hx.2.2.1⟩
    · exact absurd h4 (by simp)
    · exact ih hrest l hr

theorem parseChunks_emitLines (ps : Profiles) :
    parseChunks (emitLines ps) = some ps := by
  induction ps with
  | nil => rfl
  | cons x rest ih =>
    obtain ⟨nm, p⟩ := x
    have hemit : emitLines ((nm, p) :: rest) =
        (nm.data ++ [':']) :: ("  image: ".data ++ p.image.data) ::
        ("  provider: ".data ++ p.provider.data) ::
        ("  size: ".data ++ p.size.data) :: emitLines rest := rfl
    rw [hemit]
    simp only [parseChunks]
    rw [parseName_emit, stripPre_append, stripPre_append, stripPre_append, ih]

theorem joinLines_ne_nil (l : List Char) (ls : List (List Char)) (h : l ≠ []) :
    joinLines (l :: ls) ≠ [] := by
  match ls with
  | [] => simpa [joinLines] using h
  | l' :: ls' => simp [joinLines, h]

/-- Save-then-load round trip for the Profile Store on newline-free data. -/
theorem yamlLoad_dump (ps : Profiles) (h : plainProfiles ps) :
    yamlLoadProfiles (yamlDumpProfiles ps) = some ps := by
  match ps with
  | [] => rfl
  | (nm, p) :: rest =>
    have hlines := emitLines_no_nl _ h
    have hne : joinLines (emitLines ((nm, p) :: rest)) ≠ [] := by
      have : emitLines ((nm, p) :: rest) =
          (nm.data ++ [':']) :: ("  image: ".data ++ p.image.data) ::
          ("  provider: ".data ++ p.provider.data) ::
          ("  size: ".data ++ p.size.data) :: emitLines rest := by
        simp [emitLines, emitEntry]
      rw [this]
      exact joinLines_ne_nil _ _ (by simp)
    have hsplit : splitNl (joinLines (emitLines ((nm, p) :: rest))) =
        emitLines ((nm, p) :: rest) :=
      splitNl_joinLines _ (by simp [emitLines, emitEntry]) hlines
    unfold yamlLoadProfiles yamlDumpProfiles
    simp only [if_neg hne]
    rw [hsplit, parseChunks_emitLines]

/-! ### World and fabric environment state -/

/-- Externally visible calls the modelled tasks make, in order. -/
inductive Event where
  | refreshList
  | getMasterProfiles
  | saltCloud (profileName : String)
  | changePassword (serverName pass : String)
  | sleepSecs (n : Nat)
  | writeLocalProfiles (content : String)
  | putProfilesToMaster (content : String)
  | createServer (name imageId flavorId : String)
  | waitForBuild
  | brandCall
  | deleteServer (name : String)
  | dnsDelete (recName : String)
  | dnsUpdate (recName data : String)
  | dnsAdd (recType recName data : String)
deriving Repr, DecidableEq

/-- External world: the provider view, the two profile files, the settings
constants and the oracles for nondeterministic inputs.  providerList is what
cs.list returns; createdBox is the server object a cs.servers.create call
returns; uuids is the oracle feeding uuid4. -/
structure World where
  saltmaster : String
  rackspaceUser : String
  providerList : List ServerRecord
  images : List Image
  flavors : List Flavor
  localProfiles : Option String
  masterProfiles : String
  createdBox : ServerRecord
  uuids : List String
deriving Repr, DecidableEq

/-- Fallback value for the uuid oracle when it is exhausted (uuid4 itself
never fails; the oracle list just models a stream). -/
def defaultUuid : String := "00000000-0000-4000-8000-000000000000"

/-- The fabric env fields the modelled tasks read and write. -/
structure Env where
  boxen : List (String × ServerRecord)
  box : Option ServerRecord
  boxPublicIPs : List (Nat × String)
  hosts : List String
  passwords : List (String × String)
  password : Option String
deriving Repr, DecidableEq

/-- Python slicing str(u)[:12]: the first twelve characters. -/
def pyslice12 (s : String) : String := String.mk (s.data.take 12)

/-- refresh_boxen: replace env.boxen wholesale with the dictionary built
from the provider listing, keyed by server name. -/
def pyDictServers (l : List ServerRecord) : List (String × ServerRecord) :=
  l.map (fun b => (b.name, b))

def refresh_boxen (w : World) (env : Env) : Env :=
  { env with boxen := pyDictServers w.providerList }

/-- Dictionary indexing d[k] as the herd task performs it on env.boxen:
a missing key raises KeyError. -/
def envLookup (d : List (String × ServerRecord)) (k : String) :
    Except PyError ServerRecord :=
  match pyGet d k with
  | some v => .ok v
  | none => .error (.keyError k)

/-- The herd task: refresh the inventory, select the box (from the cache
unless newborn, in which case the env.box set by the creating caller is
kept), extract the public IPv4 address, set the single administrative target
root at that address, and resolve the credential: reuse the process-wide
cache when it has an entry for the host, else use the creation-time
adminPass, else issue a fresh 12-character token from uuid4, submit a
change_password call and sleep 10 seconds, caching the result. -/
def herd (w : World) (env : Env) (name : String) (newborn : Bool) :
    Except PyError (World × Env × List Event) :=
  let env := refresh_boxen w env
  let boxE : Except PyError ServerRecord :=
    if newborn then
      match env.box with
      | some b => .ok b
      | none => .error .attributeError
    else envLookup env.boxen name
  match boxE with
  | .error e => .error e
  | .ok box =>
    let env := { env with box := some box }
    match pyGet box.addresses "public" with
    | none => .error (.keyError "public")
    | some ips =>
      let env := { env with boxPublicIPs := ips }
      match pyGet ips 4 with
      | none => .error (.keyError "4")
      | some ip4 =>
        let host := "root@" ++ ip4 ++ ":22"
        let env := { env with hosts := [host] }
        match pyGet env.passwords host with
        | some cached =>
          .ok (w, { env with password := some cached }, [Event.refreshList])
        | none =>
          match box.adminPass with
          | some p =>
            .ok (w, { env with passwords := setKey env.passwords host p },
              [Event.refreshList])
          | none =>
            let u := w.uuids.headD defaultUuid
            let w := { w with uuids := w.uuids.tail }
            let p := pyslice12 u
            .ok (w, { env with passwords := setKey env.passwords host p },
              [Event.refreshList, Event.changePassword box.name p,
               Event.sleepSecs 10])

/-! ### The birth task (Node Resolver) -/

/-- The image filter of birth: the image name contains "Ubuntu 12.04". -/
def strHas (needle hay : List Char) : Bool :=
  match hay with
  | [] => needle.isEmpty
  | _ :: t => needle.isPrefixOf hay || strHas needle t

def imageMatches (img : Image) : Bool :=
  strHas ("Ubuntu 12.04".data) img.name.data

/-- First element of a list: Python indexing [0], raising IndexError when
the list is empty. -/
def firstItem {α : Type} (l : List α) : Except PyError α :=
  match l with
  | [] => .error .indexError
  | x :: _ => .ok x

/-- One step of the flavour comparison of birth: float(flav.ram) equals
float(hint) or float(flav.disk) equals float(hint).  A missing size hint
makes float(None) raise TypeError, as in the source where the parameter
defaults to None. -/
def flavorMatch (hint : Option Nat) (f : Flavor) : Except PyError Bool :=
  match hint with
  | none => .error .typeError
  | some h => .ok (f.ram == h || f.disk == h)

/-- The list comprehension filter, propagating an exception raised while
evaluating the predicate on any element. -/
def filterE (p : Flavor → Except PyError Bool) :
    List Flavor → Except PyError (List Flavor)
  | [] => .ok []
  | f :: fs =>
    match p f with
    | .error e => .error e
    | .ok b =>
      match filterE p fs with
      | .error e => .error e
      | .ok rest => .ok (if b then f :: rest else rest)

/-- The fall-through (ad hoc) part of birth, lines 151 to 193 of the
fabfile: resolve the image by substring match and the flavour by exact
ram-or-disk match (first match wins, an empty match list raises IndexError),
synthesise the profile entry, write the local cloud.profiles file, push it
to the salt master when one is in the cached inventory, then create the box
directly (when no_profile is set or no salt master is cached) or via
salt-cloud, and finally register DNS (recorded as the brandCall event; the
reconciliation itself is modelled by manageName below). -/
def birthRest (w : World) (env : Env) (name : String) (hint : Option Nat)
    (wait np : Bool) (profiles : Profiles) (ev0 : List Event) :
    Except PyError (Bool × World × Env × List Event) :=
  match firstItem (w.images.filter imageMatches) with
  | .error e => .error e
  | .ok ubuntu =>
    match filterE (flavorMatch hint) w.flavors with
    | .error e => .error e
    | .ok flist =>
      match firstItem flist with
      | .error e => .error e
      | .ok flavour =>
        let profiles := setKey profiles name
          ⟨"rackspace-conf-" ++ w.rackspaceUser, flavour.name, ubuntu.name⟩
        let content := yamlDumpProfiles profiles
        let w := { w with localProfiles := some content }
        let ev := ev0 ++ [Event.writeLocalProfiles content]
        let masterNow := hasKey env.boxen w.saltmaster
        let w := if masterNow then { w with masterProfiles := content } else w
        let ev := if masterNow then ev ++ [Event.putProfilesToMaster content]
          else ev
        if np || !masterNow then
          let box := w.createdBox
          let env := { env with box := some box }
          let ev := ev ++ [Event.createServer name ubuntu.id flavour.id]
          if wait then
            match herd w env name true with
            | .error e => .error e
            | .ok (w2, env2, ev2) =>
              .ok (false, w2, env2,
                ev ++ [Event.waitForBuild] ++ ev2 ++ [Event.brandCall])
          else
            .ok (false, w, env, ev ++ [Event.brandCall])
        else
          match herd w env name false with
          | .error e => .error e
          | .ok (w2, env2, ev2) =>
            .ok (false, w2, env2,
              ev ++ [Event.saltCloud name] ++ ev2 ++ [Event.brandCall])

/-- The birth task.  It first loads the local cloud.profiles file (raising
IOError when the file is missing).  When the salt master is in the cached
inventory it herds the master, pulls the master copy of the profiles file
over the local one and reloads it; a name matching a known profile is then
provisioned declaratively with salt-cloud, herded and branded, returning
True, with no ad hoc image or flavour matching, and this check does not
consult no_profile.  Otherwise the ad hoc path birthRest runs. -/
def birth (w : World) (env : Env) (name : String) (hint : Option Nat)
    (wait np : Bool) : Except PyError (Bool × World × Env × List Event) :=
  match loadProfilesFile w.localProfiles with
  | .error e => .error e
  | .ok profiles0 =>
    if hasKey env.boxen w.saltmaster then
      match herd w env w.saltmaster false with
      | .error e => .error e
      | .ok (w1, env1, ev1) =>
        let w1 := { w1 with localProfiles := some w1.masterProfiles }
        match loadProfilesFile w1.localProfiles with
        | .error e => .error e
        | .ok profiles =>
          if hasKey profiles name then
            match herd w1 env1 name false with
            | .error e => .error e
            | .ok (w2, env2, ev2) =>
              .ok (true, w2, env2,
                ev1 ++ [Event.getMasterProfiles, Event.saltCloud name] ++
                ev2 ++ [Event.brandCall])
          else
            birthRest w1 env1 name hint wait np profiles
              (ev1 ++ [Event.getMasterProfiles])
    else
      birthRest w env name hint wait np profiles0 []

/-! ### DNS reconciliation (_manage_name inside brand) -/

/-- A DNS record of the configured domain. -/
structure DNSRec where
  name : String
  rtype : String
  data : String
  ttl : Nat
deriving Repr, DecidableEq

/-- The _manage_name closure of brand: look the target name up in the
record dictionary; with a mismatched type delete the record and recurse
(the recursion then finds the name absent and creates the record); with a
matching type update the record data in place; with the name absent add a
new record with ttl 300. -/
def manageName (t nm dt : String) (records : List DNSRec) :
    List DNSRec × List Event :=
  match hfind : records.find? (fun r => r.name == nm) with
  | some r =>
    if r.rtype == t then
      (records.map (fun q => if q.name == nm then { q with data := dt } else q),
       [Event.dnsUpdate nm dt])
    else
      let rest := records.eraseP (fun q => q.name == nm)
      let res := manageName t nm dt rest
      (res.1, Event.dnsDelete nm :: res.2)
  | none => (records ++ [⟨nm, t, dt, 300⟩], [Event.dnsAdd t nm dt])
termination_by records.length
decreasing_by
  have hmem := List.mem_of_find?_eq_some hfind
  have hlen := List.length_eraseP_of_mem hmem (List.find?_some hfind)
  have hpos : 0 < records.length := List.length_pos_of_mem hmem
  omega

/-! ### The euthanise task (destroy) -/

/-- The polling loop of euthanise with wait: while the name is still a key
of the cached inventory, re-list the provider (consuming the next listing
from the oracle) and sleep one second.  Returns none when the oracle is
exhausted with the name still present, which corresponds to the unbounded
blocking loop of the source. -/
def waitGone (name : String) (boxen : List (String × ServerRecord)) :
    List (List ServerRecord) →
      Option (List (String × ServerRecord) × List Event)
  | [] => if hasKey boxen name then none else some (boxen, [])
  | l :: ls =>
    if hasKey boxen name then
      match waitGone name (pyDictServers l) ls with
      | none => none
      | some (final, ev) =>
        some (final, Event.refreshList :: Event.sleepSecs 1 :: ev)
    else some (boxen, [])

/-- The euthanise task: ask for confirmation (modelled as the boolean
answer; the default is decline).  On decline, return False with no deletion
call and no state change.  On confirm, issue the deletion; with wait, poll
until the name is gone from the re-listed inventory; without wait, remove
the name from the cached inventory directly (KeyError if absent). -/
def euthanise (confirmAnswer wait : Bool) (env : Env)
    (listings : List (List ServerRecord)) :
    Except PyError (Bool × Env × List Event) :=
  match env.box with
  | none => .error .attributeError
  | some box =>
    let name := box.name
    if confirmAnswer then
      if wait then
        match waitGone name env.boxen listings with
        | none => .error .infiniteLoop
        | some (final, ev) =>
          .ok (true, { env with boxen := final },
            Event.deleteServer name :: ev)
      else
        if hasKey env.boxen name then
          .ok (true,
            { env with boxen := env.boxen.filter (fun p => p.1 ≠ name) },
            [Event.deleteServer name])
        else .error (.keyError name)
    else
      .ok (false, env, [])

/-! ### Helper predicates and dictionary lemmas -/

/-- The event log of a birth or birthRest outcome. -/
def eventsOf (r : Except PyError (Bool × World × Env × List Event)) :
    List Event :=
  match r with
  | .ok x => x.2.2.2
  | .error _ => []

def isSaltCloudCreate : Event → Bool
  | .saltCloud _ => true
  | _ => false

def isDirectCreate : Event → Bool
  | .createServer _ _ _ => true
  | _ => false

/-- A server creation of either sort: a direct pyrax create call or a
declarative salt-cloud run. -/
def isCreation (e : Event) : Bool := isSaltCloudCreate e || isDirectCreate e

def isChangePassword : Event → Bool
  | .changePassword _ _ => true
  | _ => false

def isWriteProfiles : Event → Bool
  | .writeLocalProfiles _ => true
  | _ => false

/-- Modelled from the spec: classifies an error as the clear, descriptive
resource-not-found precondition failure the spec requires for a failed
image or flavour match (a fabric abort carrying a message, as opposed to a
bare interpreter exception).  The source never produces such an abort on
that path; this definition exists to compare the code against the spec
wording. -/
def isDescriptiveNotFound : PyError → Bool
  | .abortMsg _ => true
  | _ => false

theorem pyGet_none_iff {α β : Type} [DecidableEq α]
    (d : List (α × β)) (k : α) : pyGet d k = none ↔ k ∉ d.map Prod.fst := by
  constructor
  · intro h hk
    induction d with
    | nil => cases hk
    | cons p rest ih =>
      obtain ⟨k', v⟩ := p
      simp only [pyGet] at h
      simp only [List.map_cons, List.mem_cons] at hk
      rcases hk with hk | hk
      · rcases hd : pyGet rest k with _ | r
        · rw [hd] at h
          simp [hk] at h
        · rw [hd] at h
          cases h
      · rcases hd : pyGet rest k with _ | r
        · exact ih (by rw [hd]) hk
        · rw [hd] at h
          cases h
  · exact pyGet_none d k

theorem pyGet_append_last {α β : Type} [DecidableEq α]
    (d : List (α × β)) (k : α) (v : β) :
    pyGet (d ++ [(k, v)]) k = some v := by
  induction d with
  | nil => simp [pyGet]
  | cons p rest ih =>
    obtain ⟨k', v'⟩ := p
    simp only [List.cons_append, pyGet]
    rw [show rest.append [(k, v)] = rest ++ [(k, v)] from rfl, ih]

theorem pyGet_map_replace {α β : Type} [DecidableEq α]
    (d : List (α × β)) (k : α) (v : β) (h : hasKey d k = true) :
    pyGet (d.map (fun p => if p.1 = k then (k, v) else p)) k = some v := by
  induction d with
  | nil => simp [hasKey, pyGet] at h
  | cons p rest ih =>
    obtain ⟨k', v'⟩ := p
    by_cases hrest : hasKey rest k
    · have := ih hrest
      simp only [List.map_cons, pyGet, this]
    · have hnone : pyGet rest k = none := by
        unfold hasKey at hrest
        rcases hd : pyGet rest k with _ | r
        · rfl
        · rw [hd] at hrest; simp at hrest
      have hkeys : k ∉ rest.map Prod.fst := (pyGet_none_iff rest k).mp hnone
      have hmapped : pyGet (rest.map (fun p => if p.1 = k then (k, v) else p)) k
          = none := by
        rw [pyGet_none_iff]
        intro hk
        simp only [List.map_map, List.mem_map] at hk
        obtain ⟨q, hq, hqe⟩ := hk
        by_cases hq1 : q.1 = k
        · exact hkeys (List.mem_map.mpr ⟨q, hq, hq1⟩)
        · simp only [Function.comp_apply, if_neg hq1] at hqe
          exact hkeys (List.mem_map.mpr ⟨q, hq, hqe⟩)
      have hk' : k' = k := by
        unfold hasKey at h
        simp only [pyGet, hnone] at h
        by_cases he : k' = k
        · exact he
        · simp [he] at h
      simp only [List.map_cons]
      rw [if_pos hk']
      simp only [pyGet, hmapped]
      simp

theorem pyGet_setKey {α β : Type} [DecidableEq α]
    (d : List (α × β)) (k : α) (v : β) :
    pyGet (setKey d k v) k = some v := by
  unfold setKey
  by_cases h : hasKey d k
  · rw [if_pos h]
    exact pyGet_map_replace d k v h
  · rw [if_neg h]
    exact pyGet_append_last d k v

theorem hasKey_setKey {α β : Type} [DecidableEq α]
    (d : List (α × β)) (k : α) (v : β) : hasKey (setKey d k v) k = true := by
  unfold hasKey
  rw [pyGet_setKey]
  rfl

/-! ### Claim C2: Profile Store load on missing or empty file -/

/-- C2, counterexample: the claim says loading the Profile Store returns an
empty mapping when the cloud.profiles file is missing, but the source opens
the file with no existence check, so a missing file raises IOError rather
than producing the empty mapping. -/
theorem profile_load_missing_cex :
    loadProfilesFile none = Except.error PyError.ioError ∧
    Except.error PyError.ioError ≠ Except.ok ([] : Profiles) :=
  ⟨rfl, fun h => Except.noConfusion h⟩

/-- C2, amended: loading the Profile Store returns the empty mapping on an
EMPTY file and never errs in that case, but a MISSING file raises IOError:
the expression yaml.load(open(..)) or \x7b\x7d only neutralises the None
that yaml.load returns for empty content, while open itself raises. -/
theorem profile_load_empty_ok_missing_err :
    loadProfilesFile (some "") = Except.ok ([] : Profiles) ∧
    loadProfilesFile none = Except.error PyError.ioError :=
  ⟨rfl, rfl⟩

/-! ### Claim C9: Profile Store save then load round trip -/

/-- C9: saving the Profile Store (serialising the mapping and overwriting
the profile file, as birth does with yaml.dump) and then loading it returns
the same mapping, for every mapping whose names and entry fields are
newline-free plain scalars (the shape the code itself writes). -/
theorem profile_roundtrip (ps : Profiles)
    (_hnd : (ps.map Prod.fst).Nodup) (hplain : plainProfiles ps) :
    loadProfilesFile (some (yamlDumpProfiles ps)) = Except.ok ps := by
  have h := yamlLoad_dump ps hplain
  simp only [loadProfilesFile, h]

/-- Witness for C9 at a concrete one-entry mapping. -/
theorem profile_roundtrip_witness :
    loadProfilesFile (some (yamlDumpProfiles
      [("web1", ⟨"rackspace-conf-bob", "512MB Standard", "Ubuntu 12.04 LTS"⟩)])) =
      Except.ok [("web1",
        ⟨"rackspace-conf-bob", "512MB Standard", "Ubuntu 12.04 LTS"⟩)] :=
  profile_roundtrip _ (by decide) (by decide)

/-! ### Claim C8: Inventory Cache refresh and lookup -/

theorem pyGet_pyDictServers (l : List ServerRecord) (r : ServerRecord)
    (hnd : (l.map ServerRecord.name).Nodup) (hr : r ∈ l) :
    pyGet (pyDictServers l) r.name = some r := by
  induction l with
  | nil => cases hr
  | cons b rest ih =>
    simp only [List.map_cons, List.nodup_cons] at hnd
    rcases List.mem_cons.mp hr with hb | hr'
    · subst hb
      have hnone : pyGet (pyDictServers rest) r.name = none := by
        rw [pyGet_none_iff]
        simpa [pyDictServers, List.map_map, Function.comp] using hnd.1
      simp only [pyDictServers, List.map_cons, pyGet]
      rw [show (rest.map fun b => (b.name, b)) = pyDictServers rest from rfl,
        hnone]
      simp
    · have := ih hnd.2 hr'
      simp only [pyDictServers, List.map_cons, pyGet]
      rw [show (rest.map fun b => (b.name, b)) = pyDictServers rest from rfl,
        this]

/-- C8: refresh_boxen replaces the whole name-to-record mapping with the
dictionary of the current provider listing, independently of the previous
cache content (so every stale entry disappears); after a refresh, looking a
name up returns exactly the record the provider listed under that name, and
looking up a name absent from the listing fails with KeyError instead of
returning any stale record. -/
theorem inventory_refresh_exact (w : World) (env env' : Env)
    (r : ServerRecord) (nm : String)
    (hnd : (w.providerList.map ServerRecord.name).Nodup) :
    (refresh_boxen w env).boxen = (refresh_boxen w env').boxen ∧
    (r ∈ w.providerList →
      pyGet (refresh_boxen w env).boxen r.name = some r) ∧
    (nm ∉ w.providerList.map ServerRecord.name →
      envLookup (refresh_boxen w env).boxen nm =
        Except.error (PyError.keyError nm)) := by
  refine ⟨rfl, fun hr => pyGet_pyDictServers _ _ hnd hr, fun hnm => ?_⟩
  have hnone : pyGet (pyDictServers w.providerList) nm = none := by
    rw [pyGet_none_iff]
    simpa [pyDictServers, List.map_map, Function.comp] using hnm
  simp only [envLookup, refresh_boxen, hnone]

/-- Witness for C8 at a concrete two-server listing. -/
theorem inventory_refresh_exact_witness :
    (refresh_boxen
        ⟨"saltmaster", "bob",
          [⟨"a", "1", [], none⟩, ⟨"b", "2", [], none⟩], [], [], none, "",
          ⟨"x", "9", [], none⟩, []⟩
        ⟨[("stale", ⟨"stale", "0", [], none⟩)], none, [], [], [], none⟩).boxen =
      (refresh_boxen
        ⟨"saltmaster", "bob",
          [⟨"a", "1", [], none⟩, ⟨"b", "2", [], none⟩], [], [], none, "",
          ⟨"x", "9", [], none⟩, []⟩
        ⟨[], none, [], [], [], none⟩).boxen ∧
    ((⟨"a", "1", [], none⟩ : ServerRecord) ∈
        [(⟨"a", "1", [], none⟩ : ServerRecord), ⟨"b", "2", [], none⟩] →
      pyGet (refresh_boxen
        ⟨"saltmaster", "bob",
          [⟨"a", "1", [], none⟩, ⟨"b", "2", [], none⟩], [], [], none, "",
          ⟨"x", "9", [], none⟩, []⟩
        ⟨[("stale", ⟨"stale", "0", [], none⟩)], none, [], [], [], none⟩).boxen
        (ServerRecord.name ⟨"a", "1", [], none⟩) =
        some ⟨"a", "1", [], none⟩) ∧
    ("stale" ∉ List.map ServerRecord.name
        [(⟨"a", "1", [], none⟩ : ServerRecord), ⟨"b", "2", [], none⟩] →
      envLookup (refresh_boxen
        ⟨"saltmaster", "bob",
          [⟨"a", "1", [], none⟩, ⟨"b", "2", [], none⟩], [], [], none, "",
          ⟨"x", "9", [], none⟩, []⟩
        ⟨[("stale", ⟨"stale", "0", [], none⟩)], none, [], [], [], none⟩).boxen
        "stale" = Except.error (PyError.keyError "stale")) :=
  inventory_refresh_exact _ _ _ _ _ (by decide)

/-! ### Claim C5: DNS reconciliation -/

theorem find_eraseP_name_none (nm : String) (l : List DNSRec)
    (hnd : (l.map DNSRec.name).Nodup) :
    (l.eraseP (fun q => q.name == nm)).find? (fun q => q.name == nm)
      = none := by
  induction l with
  | nil => rfl
  | cons r rest ih =>
    simp only [List.map_cons, List.nodup_cons] at hnd
    by_cases h : r.name = nm
    · rw [List.eraseP_cons_of_pos (l := rest) (by simp [h])]
      rw [List.find?_eq_none]
      intro x hx hpx
      have hxn : x.name = nm := by simpa using hpx
      exact hnd.1 (List.mem_map.mpr ⟨x, hx, hxn.trans h.symm⟩)
    · rw [List.eraseP_cons_of_neg (l := rest) (by simp [h])]
      rw [List.find?_cons_of_neg _ (by simp [h])]
      exact ih hnd.2

theorem filter_name_of_find (nm : String) (l : List DNSRec) (r : DNSRec)
    (hnd : (l.map DNSRec.name).Nodup)
    (hf : l.find? (fun q => q.name == nm) = some r) :
    l.filter (fun q => q.name == nm) = [r] := by
  induction l with
  | nil => cases hf
  | cons a rest ih =>
    simp only [List.map_cons, List.nodup_cons] at hnd
    by_cases h : a.name = nm
    · rw [List.find?_cons_of_pos _ (by simp [h])] at hf
      injection hf with hf
      subst hf
      rw [List.filter_cons_of_pos (by simp [h])]
      have hzero : rest.filter (fun q => q.name == nm) = [] := by
        rw [List.filter_eq_nil_iff]
        intro x hx hpx
        have hxn : x.name = nm := by simpa using hpx
        exact hnd.1 (List.mem_map.mpr ⟨x, hx, hxn.trans h.symm⟩)
      rw [hzero]
    · rw [List.find?_cons_of_neg _ (by simp [h])] at hf
      rw [List.filter_cons_of_neg (by simp [h])]
      exact ih hnd.2 hf

/-- C5: DNS reconciliation in _manage_name, for every target record name on
a record set with unique names (the dictionary view the code builds): a
record present under the name with the wrong type is deleted and then
recreated with the requested type (the delete call precedes the add call,
and the final state carries exactly one record under the name, never two
and never one of the wrong type); a record present with the right type has
its data updated in place; an absent name gets a new record; and in every
case the final state holds exactly one record under the name, with the
requested type and data. -/
theorem dns_reconciliation (t nm dt : String) (records : List DNSRec)
    (hnd : (records.map DNSRec.name).Nodup) :
    (∀ r, records.find? (fun q => q.name == nm) = some r → r.rtype ≠ t →
      manageName t nm dt records =
        (records.eraseP (fun q => q.name == nm) ++ [⟨nm, t, dt, 300⟩],
         [Event.dnsDelete nm, Event.dnsAdd t nm dt])) ∧
    (∀ r, records.find? (fun q => q.name == nm) = some r → r.rtype = t →
      manageName t nm dt records =
        (records.map
          (fun q => if q.name == nm then { q with data := dt } else q),
         [Event.dnsUpdate nm dt])) ∧
    (records.find? (fun q => q.name == nm) = none →
      manageName t nm dt records =
        (records ++ [⟨nm, t, dt, 300⟩], [Event.dnsAdd t nm dt])) ∧
    (∃ ttl, (manageName t nm dt records).1.filter (fun q => q.name == nm)
      = [⟨nm, t, dt, ttl⟩]) := by
  have hrest := find_eraseP_name_none nm records hnd
  have hcase1 : ∀ r, records.find? (fun q => q.name == nm) = some r →
      r.rtype ≠ t →
      manageName t nm dt records =
        (records.eraseP (fun q => q.name == nm) ++ [⟨nm, t, dt, 300⟩],
         [Event.dnsDelete nm, Event.dnsAdd t nm dt]) := by
    intro r hf hne
    have hbeq : (r.rtype == t) = false := by simp [hne]
    rw [manageName]
    rw [hf]
    simp only [hbeq, Bool.false_eq_true, if_false]
    rw [manageName]
    rw [hrest]
  have hcase2 : ∀ r, records.find? (fun q => q.name == nm) = some r →
      r.rtype = t →
      manageName t nm dt records =
        (records.map
          (fun q => if q.name == nm then { q with data := dt } else q),
         [Event.dnsUpdate nm dt]) := by
    intro r hf heq
    have hbeq : (r.rtype == t) = true := by simp [heq]
    rw [manageName]
    rw [hf]
    simp only [hbeq, if_true]
  have hcase3 : records.find? (fun q => q.name == nm) = none →
      manageName t nm dt records =
        (records ++ [⟨nm, t, dt, 300⟩], [Event.dnsAdd t nm dt]) := by
    intro hf
    rw [manageName]
    rw [hf]
  refine ⟨hcase1, hcase2, hcase3, ?_⟩
  rcases hf : records.find? (fun q => q.name == nm) with _ | r
  · refine ⟨300, ?_⟩
    rw [hcase3 hf]
    have hzero : records.filter (fun q => q.name == nm) = [] := by
      rw [List.filter_eq_nil_iff]
      exact fun x hx => List.find?_eq_none.mp hf x hx
    simp [List.filter_append, hzero]
  · by_cases hty : r.rtype = t
    · refine ⟨r.ttl, ?_⟩
      rw [hcase2 r hf hty]
      have hname : r.name = nm := by
        have := List.find?_some hf
        simpa using this
      have hpf : ((fun q : DNSRec => q.name == nm) ∘
          (fun q => if q.name == nm then { q with data := dt } else q)) =
          fun q : DNSRec => q.name == nm := by
        funext q
        by_cases hq : q.name = nm <;> simp [hq]
      rw [List.filter_map, hpf, filter_name_of_find nm records r hnd hf]
      simp [hname, hty]
    · refine ⟨300, ?_⟩
      rw [hcase1 r hf hty]
      have hzero :
          (records.eraseP (fun q => q.name == nm)).filter
            (fun q => q.name == nm) = [] := by
        rw [List.filter_eq_nil_iff]
        exact fun x hx => List.find?_eq_none.mp hrest x hx
      simp [List.filter_append, hzero]

/-- Witness for C5: a concrete A record with a mismatched type is deleted
and recreated with the correct type. -/
theorem dns_reconciliation_witness :
    manageName "A" "web1.example.com" "1.2.3.4"
      [⟨"web1.example.com", "CNAME", "old.example.com", 300⟩] =
      ([⟨"web1.example.com", "A", "1.2.3.4", 300⟩],
       [Event.dnsDelete "web1.example.com",
        Event.dnsAdd "A" "web1.example.com" "1.2.3.4"]) :=
  (dns_reconciliation "A" "web1.example.com" "1.2.3.4"
      [⟨"web1.example.com", "CNAME", "old.example.com", 300⟩] (by decide)).1
    ⟨"web1.example.com", "CNAME", "old.example.com", 300⟩ (by decide)
    (by decide)

/-! ### Claim C6: euthanise -/

theorem waitGone_terminates (name : String)
    (boxen : List (String × ServerRecord))
    (listings : List (List ServerRecord))
    (h : hasKey boxen name = false ∨
      ∃ l ∈ listings, hasKey (pyDictServers l) name = false) :
    ∃ final ev, waitGone name boxen listings = some (final, ev) ∧
      hasKey final name = false := by
  induction listings generalizing boxen with
  | nil =>
    rcases h with h | ⟨l, hl, _⟩
    · exact ⟨boxen, [], by simp [waitGone, h], h⟩
    · cases hl
  | cons l ls ih =>
    by_cases hb : hasKey boxen name
    · rcases h with h | ⟨l', hl', h'⟩
      · rw [hb] at h
        cases h
      · have hnext : hasKey (pyDictServers l) name = false ∨
            ∃ x ∈ ls, hasKey (pyDictServers x) name = false := by
          rcases List.mem_cons.mp hl' with hfst | hmem
          · exact Or.inl (hfst ▸ h')
          · exact Or.inr ⟨l', hmem, h'⟩
        obtain ⟨final, ev, heq, hfin⟩ := ih (pyDictServers l) hnext
        refine ⟨final, Event.refreshList :: Event.sleepSecs 1 :: ev, ?_, hfin⟩
        simp only [waitGone, hb, if_true, heq]
    · refine ⟨boxen, [], ?_, by simpa using hb⟩
      simp only [waitGone, hb]
      simp

/-- C6: when the confirmation prompt of euthanise is declined (the
default), the task returns False, issues no provider call at all (the event
log is empty, so in particular no deletion call) and leaves the whole
fabric environment, including the Inventory Cache, unchanged; when
confirmation is accepted with wait, the task issues the deletion and then
blocks, re-listing each second, until the name is absent from the listing,
finishing with a cache that no longer holds the name. -/
theorem euthanise_behaviour (wait : Bool) (env : Env) (box : ServerRecord)
    (listings : List (List ServerRecord)) (hbox : env.box = some box) :
    (euthanise false wait env listings = Except.ok (false, env, [])) ∧
    ((hasKey env.boxen box.name = false ∨
      ∃ l ∈ listings, hasKey (pyDictServers l) box.name = false) →
      ∃ env' ev, euthanise true true env listings =
          Except.ok (true, env', Event.deleteServer box.name :: ev) ∧
        hasKey env'.boxen box.name = false) := by
  constructor
  · simp only [euthanise, hbox]
    simp
  · intro h
    obtain ⟨final, ev, heq, hfin⟩ := waitGone_terminates box.name env.boxen
      listings h
    refine ⟨{ env with boxen := final }, ev, ?_, by simpa using hfin⟩
    simp only [euthanise, hbox, if_true, heq]

/-- Witness for C6 at a concrete environment: declining leaves everything
unchanged, and confirming with wait polls until the listing no longer
carries the name. -/
theorem euthanise_behaviour_witness :
    (euthanise false true
        ⟨[("web1", ⟨"web1", "id1", [], none⟩)],
          some ⟨"web1", "id1", [], none⟩, [], [], [], none⟩
        [[⟨"web1", "id1", [], none⟩], []] =
      Except.ok (false,
        ⟨[("web1", ⟨"web1", "id1", [], none⟩)],
          some ⟨"web1", "id1", [], none⟩, [], [], [], none⟩, [])) ∧
    ((hasKey (Env.boxen ⟨[("web1", ⟨"web1", "id1", [], none⟩)],
          some ⟨"web1", "id1", [], none⟩, [], [], [], none⟩)
        (ServerRecord.name ⟨"web1", "id1", [], none⟩) = false ∨
      ∃ l ∈ [[(⟨"web1", "id1", [], none⟩ : ServerRecord)], []],
        hasKey (pyDictServers l)
          (ServerRecord.name ⟨"web1", "id1", [], none⟩) = false) →
      ∃ env' ev, euthanise true true
          ⟨[("web1", ⟨"web1", "id1", [], none⟩)],
            some ⟨"web1", "id1", [], none⟩, [], [], [], none⟩
          [[⟨"web1", "id1", [], none⟩], []] =
          Except.ok (true, env',
            Event.deleteServer
              (ServerRecord.name ⟨"web1", "id1", [], none⟩) :: ev) ∧
        hasKey env'.boxen
          (ServerRecord.name ⟨"web1", "id1", [], none⟩) = false) :=
  euthanise_behaviour true
    ⟨[("web1", ⟨"web1", "id1", [], none⟩)],
      some ⟨"web1", "id1", [], none⟩, [], [], [], none⟩
    ⟨"web1", "id1", [], none⟩
    [[⟨"web1", "id1", [], none⟩], []] rfl

/-! ### Claim C7: binding fails without an IPv4 address -/

/-- C7, counterexample: binding a session to a record whose public address
list carries only an IPv6 entry fails with the bare interpreter KeyError
on version key 4 raised by the box_public_ips lookup, which is not the
descriptive NoIPv4Error precondition message the claim asserts. -/
theorem herd_bind_cex :
    herd ⟨"saltmaster", "bob",
        [⟨"web1", "id1", [("public", [(6, "fe80::1")])], none⟩],
        [], [], none, "", ⟨"x", "9", [], none⟩, []⟩
      ⟨[], none, [], [], [], none⟩ "web1" false =
      Except.error (PyError.keyError "4") ∧
    isDescriptiveNotFound (PyError.keyError "4") = false :=
  ⟨rfl, rfl⟩

/-- C7, amended: binding a session (herd) to a server record whose address
mapping lacks an IPv4 entry does fail rather than proceed, but the failure
is the bare interpreter KeyError on version key 4 from indexing the
public-address dictionary, not a descriptive NoIPv4Error precondition
message; on success the single active administrative target is root at the
IPv4 address on port 22. -/
theorem herd_bind (w : World) (env : Env) (name : String)
    (box : ServerRecord) (ips : List (Nat × String))
    (hbox : pyGet (pyDictServers w.providerList) name = some box)
    (hpub : pyGet box.addresses "public" = some ips) :
    (pyGet ips 4 = none →
      herd w env name false = Except.error (PyError.keyError "4")) ∧
    (∀ a, pyGet ips 4 = some a →
      ∃ w' env' ev, herd w env name false = Except.ok (w', env', ev) ∧
        env'.hosts = ["root@" ++ a ++ ":22"]) := by
  constructor
  · intro h4
    simp only [herd, refresh_boxen, envLookup, hbox, hpub, h4,
      Bool.false_eq_true, if_false]
  · intro a h4
    simp only [herd, refresh_boxen, envLookup, hbox, hpub, h4,
      Bool.false_eq_true, if_false]
    rcases hc : pyGet env.passwords ("root@" ++ a ++ ":22") with _ | c
    · rcases hap : box.adminPass with _ | p
      · exact ⟨_, _, _, rfl, rfl⟩
      · exact ⟨_, _, _, rfl, rfl⟩
    · exact ⟨_, _, _, rfl, rfl⟩

/-- Witness for C7 at concrete records: a box with only an IPv6 entry
fails, and one with an IPv4 entry binds root at that address. -/
theorem herd_bind_witness :
    (pyGet [(6, "fe80::1")] 4 = none →
      herd ⟨"saltmaster", "bob",
          [⟨"web1", "id1", [("public", [(6, "fe80::1")])], none⟩],
          [], [], none, "", ⟨"x", "9", [], none⟩, []⟩
        ⟨[], none, [], [], [], none⟩ "web1" false =
        Except.error (PyError.keyError "4")) ∧
    (∀ a, pyGet [(6, "fe80::1")] 4 = some a →
      ∃ w' env' ev, herd ⟨"saltmaster", "bob",
          [⟨"web1", "id1", [("public", [(6, "fe80::1")])], none⟩],
          [], [], none, "", ⟨"x", "9", [], none⟩, []⟩
        ⟨[], none, [], [], [], none⟩ "web1" false =
          Except.ok (w', env', ev) ∧
        env'.hosts = ["root@" ++ a ++ ":22"]) :=
  herd_bind _ _ "web1" ⟨"web1", "id1", [("public", [(6, "fe80::1")])], none⟩
    [(6, "fe80::1")] rfl rfl

/-! ### Claim C4: Session Binder credential resolution -/

/-- C4: the Session Binder resolves the administrative credential in this
order.  With a cached entry for root at the address, the cached credential
is reused, the cache is unchanged and no password-change call is issued
(and binding twice to the same address yields the identical credential: a
second bind issues no password-change call and leaves the per-host
credential untouched).  With no cache entry but a creation-time adminPass
on the bound record, that credential is cached and no password-change call
is issued.  Otherwise a token of the first twelve characters of the next
uuid is generated, a change_password call is issued followed by the fixed
ten-second settle pause, and the token is cached; any string of length at
least twelve yields a twelve-character token. -/
theorem herd_credentials (w : World) (env : Env) (name : String)
    (box : ServerRecord) (ips : List (Nat × String)) (a : String)
    (hbox : pyGet (pyDictServers w.providerList) name = some box)
    (hpub : pyGet box.addresses "public" = some ips)
    (hip4 : pyGet ips 4 = some a) :
    (∀ c, pyGet env.passwords ("root@" ++ a ++ ":22") = some c →
      ∃ env', herd w env name false =
          Except.ok (w, env', [Event.refreshList]) ∧
        env'.passwords = env.passwords ∧ env'.password = some c) ∧
    (∀ p, pyGet env.passwords ("root@" ++ a ++ ":22") = none →
      box.adminPass = some p →
      ∃ env', herd w env name false =
          Except.ok (w, env', [Event.refreshList]) ∧
        pyGet env'.passwords ("root@" ++ a ++ ":22") = some p) ∧
    (pyGet env.passwords ("root@" ++ a ++ ":22") = none →
      box.adminPass = none →
      ∃ env', herd w env name false =
          Except.ok ({ w with uuids := w.uuids.tail }, env',
            [Event.refreshList,
             Event.changePassword box.name
               (pyslice12 (w.uuids.headD defaultUuid)),
             Event.sleepSecs 10]) ∧
        pyGet env'.passwords ("root@" ++ a ++ ":22") =
          some (pyslice12 (w.uuids.headD defaultUuid))) ∧
    (∀ s : String, 12 ≤ s.length → (pyslice12 s).length = 12) ∧
    (∀ w1 env1 ev1, herd w env name false = Except.ok (w1, env1, ev1) →
      ∃ env2 ev2, herd w1 env1 name false = Except.ok (w1, env2, ev2) ∧
        ev2.any isChangePassword = false ∧
        pyGet env2.passwords ("root@" ++ a ++ ":22") =
          pyGet env1.passwords ("root@" ++ a ++ ":22") ∧
        env2.password = pyGet env1.passwords ("root@" ++ a ++ ":22")) := by
  refine ⟨?_, ?_, ?_, ?_, ?_⟩
  · intro c hc
    refine ⟨⟨pyDictServers w.providerList, some box, ips,
      ["root@" ++ a ++ ":22"], env.passwords, some c⟩, ?_, rfl, rfl⟩
    simp only [herd, refresh_boxen, envLookup, hbox, hpub, hip4, hc,
      Bool.false_eq_true, if_false]
  · intro p hc hap
    refine ⟨⟨pyDictServers w.providerList, some box, ips,
      ["root@" ++ a ++ ":22"],
      setKey env.passwords ("root@" ++ a ++ ":22") p, env.password⟩, ?_,
      pyGet_setKey _ _ _⟩
    simp only [herd, refresh_boxen, envLookup, hbox, hpub, hip4, hc, hap,
      Bool.false_eq_true, if_false]
  · intro hc hap
    refine ⟨⟨pyDictServers w.providerList, some box, ips,
      ["root@" ++ a ++ ":22"],
      setKey env.passwords ("root@" ++ a ++ ":22")
        (pyslice12 (w.uuids.headD defaultUuid)), env.password⟩, ?_,
      pyGet_setKey _ _ _⟩
    simp only [herd, refresh_boxen, envLookup, hbox, hpub, hip4, hc, hap,
      Bool.false_eq_true, if_false]
  · intro s hs
    have hdef : (pyslice12 s).length = (s.data.take 12).length := rfl
    have hlen : s.length = s.data.length := rfl
    rw [hdef, List.length_take]
    omega
  · intro w1 env1 ev1 h
    simp only [herd, refresh_boxen, envLookup, hbox, hpub, hip4,
      Bool.false_eq_true, if_false] at h
    rcases hc : pyGet env.passwords ("root@" ++ a ++ ":22") with _ | c
    · rcases hap : box.adminPass with _ | p
      · rw [hc, hap] at h
        simp only [Except.ok.injEq, Prod.mk.injEq] at h
        obtain ⟨hw, henv, hev⟩ := h
        subst hw
        subst henv
        refine ⟨⟨pyDictServers w.providerList, some box, ips,
          ["root@" ++ a ++ ":22"],
          setKey env.passwords ("root@" ++ a ++ ":22")
            (pyslice12 (w.uuids.headD defaultUuid)),
          some (pyslice12 (w.uuids.headD defaultUuid))⟩,
          [Event.refreshList], ?_, rfl, rfl, (pyGet_setKey _ _ _).symm⟩
        simp only [herd, refresh_boxen, envLookup, hbox, hpub, hip4,
          Bool.false_eq_true, if_false, pyGet_setKey]
      · rw [hc, hap] at h
        simp only [Except.ok.injEq, Prod.mk.injEq] at h
        obtain ⟨hw, henv, hev⟩ := h
        subst hw
        subst henv
        refine ⟨⟨pyDictServers w.providerList, some box, ips,
          ["root@" ++ a ++ ":22"],
          setKey env.passwords ("root@" ++ a ++ ":22") p, some p⟩,
          [Event.refreshList], ?_, rfl, rfl, (pyGet_setKey _ _ _).symm⟩
        simp only [herd, refresh_boxen, envLookup, hbox, hpub, hip4,
          Bool.false_eq_true, if_false, pyGet_setKey]
    · rw [hc] at h
      simp only [Except.ok.injEq, Prod.mk.injEq] at h
      obtain ⟨hw, henv, hev⟩ := h
      subst hw
      subst henv
      refine ⟨⟨pyDictServers w.providerList, some box, ips,
        ["root@" ++ a ++ ":22"], env.passwords, some c⟩,
        [Event.refreshList], ?_, rfl, rfl, hc.symm⟩
      simp only [herd, refresh_boxen, envLookup, hbox, hpub, hip4, hc,
        Bool.false_eq_true, if_false]

/-- Concrete fixtures for the Session Binder witnesses. -/
def boxNoPass : ServerRecord :=
  ⟨"web1", "id1", [("public", [(4, "10.0.0.2")])], none⟩

def wNoPass : World :=
  ⟨"saltmaster", "bob", [boxNoPass], [], [], none, "", boxNoPass,
   ["123e4567-e89b-12d3-a456-426614174000"]⟩

def envEmpty : Env := ⟨[], none, [], [], [], none⟩

/-- Witness for C4: with no cache entry and no creation-time credential, a
fresh twelve-character token is issued with a change_password call and a
ten-second pause, and cached. -/
theorem herd_credentials_witness :
    ∃ env', herd wNoPass envEmpty "web1" false =
        Except.ok ({ wNoPass with uuids := wNoPass.uuids.tail }, env',
          [Event.refreshList,
           Event.changePassword boxNoPass.name
             (pyslice12 (wNoPass.uuids.headD defaultUuid)),
           Event.sleepSecs 10]) ∧
      pyGet env'.passwords ("root@" ++ "10.0.0.2" ++ ":22") =
        some (pyslice12 (wNoPass.uuids.headD defaultUuid)) :=
  (herd_credentials wNoPass envEmpty "web1" boxNoPass [(4, "10.0.0.2")]
    "10.0.0.2" rfl rfl rfl).2.2.1 rfl rfl

/-! ### Claim C1: no matching image or flavour on the ad hoc path -/

/-- Fixture: a world with no salt master listed, no image containing
"Ubuntu 12.04" and a single flavour. -/
def wrongImageWorld : World :=
  ⟨"saltmaster", "bob", [], [⟨"img1", "Debian 7"⟩],
   [⟨"f1", "512MB", 512, 20⟩], some "", "",
   ⟨"web1", "idw", [("public", [(4, "10.0.0.5")])], some "pw"⟩, []⟩

/-- C1, amended: on the ad hoc creation path of birth, when no image whose
name contains "Ubuntu 12.04" exists, or no flavour matches the size hint,
the operation aborts by raising a bare IndexError (taking element zero of
an empty match list) rather than proceeding with an arbitrary choice; the
abort is the undescriptive interpreter exception, not a descriptive
resource-not-found precondition message. -/
theorem birth_adhoc_abort (w : World) (env : Env) (name : String)
    (hint : Option Nat) (wait np : Bool) (ps0 : Profiles)
    (hload : loadProfilesFile w.localProfiles = Except.ok ps0)
    (hnomaster : hasKey env.boxen w.saltmaster = false) :
    (w.images.filter imageMatches = [] →
      birth w env name hint wait np = Except.error PyError.indexError) ∧
    (filterE (flavorMatch hint) w.flavors = Except.ok [] →
      birth w env name hint wait np = Except.error PyError.indexError) := by
  have hb : birth w env name hint wait np =
      birthRest w env name hint wait np ps0 [] := by
    simp only [birth, hload, hnomaster, Bool.false_eq_true, if_false]
  constructor
  · intro himg
    rw [hb]
    simp only [birthRest, himg, firstItem]
  · intro hflav
    rw [hb]
    rcases himg : w.images.filter imageMatches with _ | ⟨img, rest⟩
    · simp only [birthRest, himg, firstItem]
    · simp only [birthRest, himg, firstItem, hflav]

/-- C1, counterexample: with no image containing "Ubuntu 12.04" in the
listing, birth aborts with the bare IndexError of indexing an empty list,
which is not a descriptive resource-not-found precondition failure, against
the claim wording. -/
theorem birth_adhoc_abort_cex :
    birth wrongImageWorld envEmpty "web1" (some 512) false false =
      Except.error PyError.indexError ∧
    isDescriptiveNotFound PyError.indexError = false :=
  ⟨rfl, rfl⟩

/-- Witness for the amended C1 at a concrete input. -/
theorem birth_adhoc_abort_witness :
    birth wrongImageWorld envEmpty "web2" (some 4096) false true =
      Except.error PyError.indexError :=
  (birth_adhoc_abort wrongImageWorld envEmpty "web2" (some 4096) false true
    [] rfl rfl).1 rfl

/-! ### Claim C3: the declarative path for a known profile -/

theorem herd_no_create_events (w : World) (env : Env) (name : String)
    (nb : Bool) (w' : World) (env' : Env) (ev : List Event)
    (h : herd w env name nb = Except.ok (w', env', ev)) :
    ev.any isDirectCreate = false ∧ ev.any isWriteProfiles = false := by
  simp only [herd, refresh_boxen, envLookup] at h
  repeat' split at h
  all_goals simp at h
  all_goals (obtain ⟨hw, henv, hev⟩ := h; subst hev; exact ⟨rfl, rfl⟩)

/-- C3, amended: whenever the salt master is in the cached inventory and
the requested name is a known profile of the pulled profiles file, birth
takes the declarative salt-cloud path REGARDLESS of no_profile (the code
never consults no_profile before the known-profile check): it provisions
via salt-cloud, herds the new box, brands it and returns True, with no
direct pyrax creation and no profile write.  no_profile only selects the
creation method on the unknown-profile fall-through. -/
theorem birth_declarative_path (w : World) (env : Env) (name : String)
    (hint : Option Nat) (wait np : Bool) (ps0 : Profiles)
    (w1 : World) (env1 : Env) (ev1 : List Event) (profiles : Profiles)
    (w2 : World) (env2 : Env) (ev2 : List Event)
    (hload : loadProfilesFile w.localProfiles = Except.ok ps0)
    (hmaster : hasKey env.boxen w.saltmaster = true)
    (hherd1 : herd w env w.saltmaster false = Except.ok (w1, env1, ev1))
    (hload2 : loadProfilesFile (some w1.masterProfiles) = Except.ok profiles)
    (hknown : hasKey profiles name = true)
    (hherd2 : herd { w1 with localProfiles := some w1.masterProfiles } env1
        name false = Except.ok (w2, env2, ev2)) :
    birth w env name hint wait np =
      Except.ok (true, w2, env2,
        ev1 ++ [Event.getMasterProfiles, Event.saltCloud name] ++ ev2 ++
        [Event.brandCall]) ∧
    (ev1 ++ [Event.getMasterProfiles, Event.saltCloud name] ++ ev2 ++
        [Event.brandCall]).any isDirectCreate = false ∧
    (ev1 ++ [Event.getMasterProfiles, Event.saltCloud name] ++ ev2 ++
        [Event.brandCall]).any isWriteProfiles = false := by
  obtain ⟨h1d, h1w⟩ := herd_no_create_events w env w.saltmaster false
    w1 env1 ev1 hherd1
  obtain ⟨h2d, h2w⟩ := herd_no_create_events
    { w1 with localProfiles := some w1.masterProfiles } env1 name false
    w2 env2 ev2 hherd2
  refine ⟨?_, ?_, ?_⟩
  · simp only [birth, hload, hmaster, if_true, hherd1, hload2, hknown,
      hherd2]
  · simp [List.any_append, h1d, h2d, isDirectCreate]
  · simp [List.any_append, h1w, h2w, isWriteProfiles]

/-- Fixtures for the declarative-path claim: a listed salt master and a
worker, and a master profiles file knowing "web1". -/
def masterBox : ServerRecord :=
  ⟨"saltmaster", "idm", [("public", [(4, "10.0.0.1")])], some "mpass"⟩

def web1Box : ServerRecord :=
  ⟨"web1", "idw", [("public", [(4, "10.0.0.2")])], some "wpass"⟩

def declWorld : World :=
  ⟨"saltmaster", "bob", [masterBox, web1Box], [], [], some "",
   "web1:\n  image: Ubuntu 12.04 LTS\n  provider: rackspace-conf-bob\n  size: 512MB",
   masterBox, []⟩

def declEnv : Env :=
  ⟨pyDictServers [masterBox, web1Box], none, [], [], [], none⟩

/-- C3, counterexample: with the salt master present and "web1" a known
profile, a birth call with no_profile true (force_ad_hoc) still takes the
declarative salt-cloud path and performs no ad hoc creation and no profile
write, contradicting the claim that force_ad_hoc makes birth fall through
to ad hoc creation for a known profile name. -/
theorem birth_declarative_cex :
    (eventsOf (birth declWorld declEnv "web1" (some 512) false true)).any
      isSaltCloudCreate = true ∧
    (eventsOf (birth declWorld declEnv "web1" (some 512) false true)).any
      isDirectCreate = false ∧
    (eventsOf (birth declWorld declEnv "web1" (some 512) false true)).any
      isWriteProfiles = false :=
  ⟨rfl, rfl, rfl⟩

def env1Decl : Env :=
  ⟨pyDictServers [masterBox, web1Box], some masterBox, [(4, "10.0.0.1")],
   ["root@10.0.0.1:22"], [("root@10.0.0.1:22", "mpass")], none⟩

def env2Decl : Env :=
  ⟨pyDictServers [masterBox, web1Box], some web1Box, [(4, "10.0.0.2")],
   ["root@10.0.0.2:22"],
   [("root@10.0.0.1:22", "mpass"), ("root@10.0.0.2:22", "wpass")], none⟩

def w2Decl : World :=
  { declWorld with localProfiles := some declWorld.masterProfiles }

/-- Witness for the amended C3: the same fixtures with no_profile false
take the same declarative path. -/
theorem birth_declarative_path_witness :
    birth declWorld declEnv "web1" (some 512) false false =
      Except.ok (true, w2Decl, env2Decl,
        [Event.refreshList] ++
        [Event.getMasterProfiles, Event.saltCloud "web1"] ++
        [Event.refreshList] ++ [Event.brandCall]) ∧
    ([Event.refreshList] ++
        [Event.getMasterProfiles, Event.saltCloud "web1"] ++
        [Event.refreshList] ++ [Event.brandCall]).any isDirectCreate =
      false ∧
    ([Event.refreshList] ++
        [Event.getMasterProfiles, Event.saltCloud "web1"] ++
        [Event.refreshList] ++ [Event.brandCall]).any isWriteProfiles =
      false :=
  birth_declarative_path declWorld declEnv "web1" (some 512) false false []
    declWorld env1Decl [Event.refreshList]
    [("web1", ⟨"rackspace-conf-bob", "512MB", "Ubuntu 12.04 LTS"⟩)]
    w2Decl env2Decl [Event.refreshList]
    rfl rfl rfl rfl rfl rfl

/-! ### Claim C10: the ad hoc path persists a profile before creating -/

/-- C10: every successful run of the ad hoc creation path of birth
(birthRest, the fall-through of lines 151 to 193, reached both with and
without no_profile and with any accumulated event prefix ev0) synthesises
a profile entry for the requested name and writes the serialised mapping
to the local profiles file BEFORE any server creation call (direct pyrax
create or salt-cloud run), and, when the salt master is in the cached
inventory, also pushes the same content to the master; requesting a
throwaway box (no_profile true) does not suppress the persistence. -/
theorem birth_adhoc_persists_profile (w : World) (env : Env) (name : String)
    (hint : Option Nat) (wait np : Bool) (ps : Profiles) (ev0 : List Event)
    (b : Bool) (w' : World) (env' : Env) (evs : List Event)
    (h : birthRest w env name hint wait np ps ev0 =
      Except.ok (b, w', env', evs)) :
    ∃ ps' evs',
      evs = ev0 ++ Event.writeLocalProfiles (yamlDumpProfiles ps') :: evs' ∧
      hasKey ps' name = true ∧
      evs'.any isCreation = true ∧
      (hasKey env.boxen w.saltmaster = true →
        Event.putProfilesToMaster (yamlDumpProfiles ps') ∈ evs') := by
  simp only [birthRest] at h
  rcases himg : firstItem (w.images.filter imageMatches) with e | ubuntu
  · simp only [himg] at h
    exact Except.noConfusion h
  simp only [himg] at h
  rcases hfl : filterE (flavorMatch hint) w.flavors with e | flist
  · simp only [hfl] at h
    exact Except.noConfusion h
  simp only [hfl] at h
  rcases hfv : firstItem flist with e | flavour
  · simp only [hfv] at h
    exact Except.noConfusion h
  simp only [hfv] at h
  by_cases hm : hasKey env.boxen w.saltmaster = true
  · simp only [hm] at h
    by_cases hnp : np = true
    · simp only [hnp] at h
      simp only [Bool.not_true, Bool.or_false, if_true] at h
      by_cases hw : wait = true
      · simp only [hw, if_true] at h
        split at h
        · simp at h
        rename_i w2 env2 ev2 heq
        simp at h
        obtain ⟨hb, hw2, he2, hev⟩ := h
        subst hev
        refine ⟨setKey ps name
          ⟨"rackspace-conf-" ++ w.rackspaceUser, flavour.name, ubuntu.name⟩,
          Event.putProfilesToMaster (yamlDumpProfiles (setKey ps name
            ⟨"rackspace-conf-" ++ w.rackspaceUser, flavour.name,
             ubuntu.name⟩)) ::
          Event.createServer name ubuntu.id flavour.id ::
          Event.waitForBuild :: (ev2 ++ [Event.brandCall]),
          ?_, hasKey_setKey _ _ _, ?_, ?_⟩
        · simp [List.append_assoc]
        · simp [isCreation, isDirectCreate, isSaltCloudCreate]
        · intro hmm
          simp
      · simp only [hw, Bool.false_eq_true, if_false] at h
        simp at h
        obtain ⟨hb, hw2, he2, hev⟩ := h
        subst hev
        refine ⟨setKey ps name
          ⟨"rackspace-conf-" ++ w.rackspaceUser, flavour.name, ubuntu.name⟩,
          [Event.putProfilesToMaster (yamlDumpProfiles (setKey ps name
            ⟨"rackspace-conf-" ++ w.rackspaceUser, flavour.name,
             ubuntu.name⟩)),
           Event.createServer name ubuntu.id flavour.id, Event.brandCall],
          ?_, hasKey_setKey _ _ _, ?_, ?_⟩
        · simp [List.append_assoc]
        · simp [isCreation, isDirectCreate, isSaltCloudCreate]
        · intro hmm
          simp
    · simp only [Bool.not_eq_true] at hnp
      simp only [hnp] at h
      simp only [Bool.not_true, Bool.or_false, Bool.false_or,
        Bool.false_eq_true, if_false] at h
      split at h
      · simp at h
      rename_i w2 env2 ev2 heq
      simp at h
      obtain ⟨hb, hw2, he2, hev⟩ := h
      subst hev
      refine ⟨setKey ps name
        ⟨"rackspace-conf-" ++ w.rackspaceUser, flavour.name, ubuntu.name⟩,
        Event.putProfilesToMaster (yamlDumpProfiles (setKey ps name
          ⟨"rackspace-conf-" ++ w.rackspaceUser, flavour.name,
           ubuntu.name⟩)) ::
        Event.saltCloud name :: (ev2 ++ [Event.brandCall]),
        ?_, hasKey_setKey _ _ _, ?_, ?_⟩
      · simp [List.append_assoc]
      · simp [isCreation, isDirectCreate, isSaltCloudCreate]
      · intro hmm
        simp
  · simp only [Bool.not_eq_true] at hm
    simp only [hm] at h
    simp only [Bool.not_false, Bool.or_true, if_true,
      Bool.false_eq_true, if_false] at h
    by_cases hw : wait = true
    · simp only [hw, if_true] at h
      split at h
      · simp at h
      rename_i w2 env2 ev2 heq
      simp at h
      obtain ⟨hb, hw2, he2, hev⟩ := h
      subst hev
      refine ⟨setKey ps name
        ⟨"rackspace-conf-" ++ w.rackspaceUser, flavour.name, ubuntu.name⟩,
        Event.createServer name ubuntu.id flavour.id ::
        Event.waitForBuild :: (ev2 ++ [Event.brandCall]),
        ?_, hasKey_setKey _ _ _, ?_, ?_⟩
      · simp [List.append_assoc]
      · simp [isCreation, isDirectCreate, isSaltCloudCreate]
      · intro hmm
        rw [hm] at hmm
        simp at hmm
    · simp only [hw, Bool.false_eq_true, if_false] at h
      simp at h
      obtain ⟨hb, hw2, he2, hev⟩ := h
      subst hev
      refine ⟨setKey ps name
        ⟨"rackspace-conf-" ++ w.rackspaceUser, flavour.name, ubuntu.name⟩,
        [Event.createServer name ubuntu.id flavour.id, Event.brandCall],
        ?_, hasKey_setKey _ _ _, ?_, ?_⟩
      · simp [List.append_assoc]
      · simp [isCreation, isDirectCreate, isSaltCloudCreate]
      · intro hmm
        rw [hm] at hmm
        simp at hmm

/-- Fixture for the ad hoc persistence witness: no salt master cached, a
matching image and a matching flavour. -/
def adhocWorld : World :=
  ⟨"saltmaster", "bob", [], [⟨"img-u", "Ubuntu 12.04 LTS"⟩],
   [⟨"fl-512", "512MB Standard", 512, 20⟩], some "", "",
   ⟨"web9", "idw9", [("public", [(4, "10.0.0.9")])], some "pw9"⟩, []⟩

def adhocProfileEntry : Profile :=
  ⟨"rackspace-conf-bob", "512MB Standard", "Ubuntu 12.04 LTS"⟩

def adhocContent : String := yamlDumpProfiles [("web9", adhocProfileEntry)]

/-- Witness for C10 at a concrete successful ad hoc run. -/
theorem birth_adhoc_persists_profile_witness :
    ∃ ps' evs',
      ([Event.writeLocalProfiles
          (yamlDumpProfiles [("web9", adhocProfileEntry)]),
        Event.createServer "web9" "img-u" "fl-512",
        Event.brandCall] : List Event) =
        [] ++ Event.writeLocalProfiles (yamlDumpProfiles ps') :: evs' ∧
      hasKey ps' "web9" = true ∧
      evs'.any isCreation = true ∧
      (hasKey envEmpty.boxen adhocWorld.saltmaster = true →
        Event.putProfilesToMaster (yamlDumpProfiles ps') ∈ evs') :=
  birth_adhoc_persists_profile adhocWorld envEmpty "web9" (some 512)
    false false [] [] false
    { adhocWorld with localProfiles := some adhocContent }
    ⟨[], some adhocWorld.createdBox, [], [], [], none⟩
    [Event.writeLocalProfiles
       (yamlDumpProfiles [("web9", adhocProfileEntry)]),
     Event.createServer "web9" "img-u" "fl-512", Event.brandCall]
    rfl

end SaltBeef
